import Mathlib

/-!
Verification of the MiPi-1wire temperature server (`src/main.rs`).

The program is embedded shallowly:

* IEEE-754 `f32` values are modelled as exact rationals together with an
  explicit round-to-nearest-even operation `roundf32` on the binary32 grid
  (24-bit significand).  All values reachable in this program are normal
  (magnitudes are 0 or lie between 1/1000 and about 2^32), so overflow,
  subnormals, NaN and negative zero never arise and are not modelled.
* File contents are strings; `BufRead::lines` is modelled by `rustLines`.
* `Result<T, Box<dyn Error>>` is modelled by `RRes` whose `err` carries the
  error's `Display` description; a Rust panic (from `unreachable!`) is the
  separate constructor `panicked`, which propagates and never yields a value.
* The HTTP layer is reduced to the pure request -> response function
  `read_temp` over the method, the path, the `TEST_MODE` flag and the
  behaviour of the hardware-backed sensor and of the clock.
-/

attribute [local semireducible] Rat.mul Rat.add Rat.sub Rat.inv

/-- Round-half-to-even of a rational to an integer (the rounding used both by
IEEE-754 binary arithmetic and by Rust's `{:.1}` float formatting). -/
def rndNE (q : ℚ) : ℤ :=
  let f : ℤ := Int.fdiv q.num q.den
  let rnum : ℤ := q.num - f * q.den
  if 2 * rnum < (q.den : ℤ) then f
  else if (q.den : ℤ) < 2 * rnum then f + 1
  else if f % 2 = 0 then f else f + 1

/-- `log2fuel fuel n = ⌊log₂ n⌋` for `1 ≤ n ≤ fuel` (0 for `n ≤ 1`). -/
def log2fuel : ℕ → ℕ → ℕ
  | 0, _ => 0
  | fuel + 1, n => if n ≤ 1 then 0 else log2fuel fuel (n / 2) + 1

/-- `clog2fuel fuel a b` is the least `k` with `a * 2^k ≥ b` (for positive
`a`, `b` with enough `fuel`). -/
def clog2fuel : ℕ → ℕ → ℕ → ℕ
  | 0, _, _ => 0
  | fuel + 1, a, b => if b ≤ a then 0 else clog2fuel fuel (2 * a) b + 1

/-- `2 ^ e` as a rational, for an integer exponent. -/
def pow2q : ℤ → ℚ
  | .ofNat n => (2 : ℚ) ^ n
  | .negSucc n => 1 / (2 : ℚ) ^ (n + 1)

/-- `⌊log₂ q⌋` for a positive rational `q`. -/
def qexp2 (q : ℚ) : ℤ :=
  let a := q.num.natAbs
  let d := q.den
  if d ≤ a then (log2fuel (a / d) (a / d) : ℤ)
  else -(clog2fuel d a d : ℤ)

/-- Round a real (rational) value to the nearest IEEE-754 binary32 value,
ties to even.  Faithful for results in the normal range, which covers every
value this program computes. -/
def roundf32 (q : ℚ) : ℚ :=
  if q = 0 then 0
  else
    let a := |q|
    let e := qexp2 a
    let scale := pow2q (23 - e)
    let v := (rndNE (a * scale) : ℚ) / scale
    if q < 0 then -v else v

/-- `f32` multiplication: exact product, then binary32 rounding. -/
def f32mul (x y : ℚ) : ℚ := roundf32 (x * y)

/-- `f32` division: exact quotient, then binary32 rounding. -/
def f32div (x y : ℚ) : ℚ := roundf32 (x / y)

/-- `f32` addition: exact sum, then binary32 rounding. -/
def f32add (x y : ℚ) : ℚ := roundf32 (x + y)

/-- The Fahrenheit conversion `temp * 9.0 / 5.0 + 32.0` exactly as the `f32`
expression on line 77 of `main.rs` computes it (three rounded operations;
the literals 9.0, 5.0 and 32.0 are exactly representable). -/
def fahr (t : ℚ) : ℚ := f32add (f32div (f32mul t 9) 5) 32

/-- Rust's `format!("{:.1}", x)` for an `f32` value `x`: the exact value of
the float rounded to one decimal digit, ties to even, never using exponent
notation.  (`-0.0` cannot arise in this program, so the sign is just `x < 0`.) -/
def fmt1 (q : ℚ) : String :=
  let n := (rndNE (|q| * 10)).toNat
  (if q < 0 then "-" else "") ++ toString (n / 10) ++ "." ++ toString (n % 10)

/-- Result of a Rust computation: `Ok`, `Err` (carrying the error's
description) or an unwinding panic (carrying the panic message). -/
inductive RRes (α : Type) where
  | ok (a : α)
  | err (e : String)
  | panicked (msg : String)
deriving DecidableEq, Repr

instance {ε α : Type} [DecidableEq ε] [DecidableEq α] : DecidableEq (Except ε α) := fun x y =>
  match x, y with
  | .ok a, .ok b => if h : a = b then .isTrue (by rw [h]) else .isFalse (by simp [h])
  | .error a, .error b => if h : a = b then .isTrue (by rw [h]) else .isFalse (by simp [h])
  | .ok _, .error _ => .isFalse (by simp)
  | .error _, .ok _ => .isFalse (by simp)

/-- Lift an infallible-by-construction `Except` (no panic possible) into `RRes`. -/
def RRes.ofExcept {α : Type} : Except String α → RRes α
  | .ok a => .ok a
  | .error e => .err e

/-- A `Sensor` trait object: `get_ids` enumerates sensor ids, `get_celcius`
reads one sensor's temperature (an `f32`, modelled as its exact rational value). -/
structure SensorImpl where
  get_ids : RRes (List String)
  get_celcius : String → RRes ℚ

/-- A local timestamp with minute precision, the data `%Y-%m-%d %H-%M` uses. -/
structure DateTimeMin where
  year : ℕ
  month : ℕ
  day : ℕ
  hour : ℕ
  minute : ℕ

/-- Zero-pad a numeral to two digits (`%m`, `%d`, `%H`, `%M`). -/
def pad2 (n : ℕ) : String :=
  if n < 10 then "0" ++ toString n else toString n

/-- Zero-pad a numeral to four digits (`%Y`). -/
def pad4 (n : ℕ) : String :=
  if n < 10 then "000" ++ toString n
  else if n < 100 then "00" ++ toString n
  else if n < 1000 then "0" ++ toString n
  else toString n

/-- The clock format string `"%Y-%m-%d %H-%M"` from line 67 of `main.rs`. -/
def formatDT (t : DateTimeMin) : String :=
  pad4 t.year ++ "-" ++ pad2 t.month ++ "-" ++ pad2 t.day ++ " " ++
    pad2 t.hour ++ "-" ++ pad2 t.minute

/-- The test clock: `date!(2020-01-01).midnight()`. -/
def fakeClock : DateTimeMin := ⟨2020, 1, 1, 0, 0⟩

/-- `FakeSensor::get_ids`: the fixed list (lines 53-55 of `main.rs`). -/
def FakeSensor.get_ids : RRes (List String) :=
  .ok ["id1", "id2", "id3"]

/-- `FakeSensor::get_celcius` (lines 56-63 of `main.rs`); the `_` arm is
`unreachable!()`, i.e. a panic. -/
def FakeSensor.get_celcius (id : String) : RRes ℚ :=
  if id = "id1" then .ok 0
  else if id = "id2" then .ok 100
  else if id = "id3" then .ok (-40)
  else .panicked "internal error: entered unreachable code"

/-- The stand-in Sensor Source packaged as a trait object. -/
def fakeSensor : SensorImpl :=
  { get_ids := FakeSensor.get_ids, get_celcius := FakeSensor.get_celcius }

/-- One `<owd>` record of the report, exactly as lines 73-78 of `main.rs`
append it for a sensor `id` whose reading is `temp`. -/
def owdBlock (id : String) (temp : ℚ) : String :=
  "<owd>\n" ++ "<Name>DS18B20</Name>\n" ++
    ("<ROMId>" ++ id ++ "</ROMId>\n") ++
    ("<Temperature>" ++ fmt1 temp ++ "</Temperature>\n") ++
    ("<TemperatureF>" ++ fmt1 (fahr temp) ++ "</TemperatureF>\n") ++
    "</owd>\n"

/-- The opening root tag with the `updated` attribute (line 68 of `main.rs`). -/
def reportHeader (clk : DateTimeMin) : String :=
  "<a updated='" ++ formatDT clk ++ "'>\n"

/-- The body-accumulating loop of `get_temps` (lines 71-79 of `main.rs`):
on the first failing read the whole computation stops with that outcome. -/
def tempsLoop (S : SensorImpl) : List String → String → RRes String
  | [], body => .ok body
  | id :: rest, body =>
    match S.get_celcius id with
    | .ok temp => tempsLoop S rest (body ++ owdBlock id temp)
    | .err e => .err e
    | .panicked m => .panicked m

/-- `get_temps::<C, S>` (lines 66-86 of `main.rs`), over the clock value and
the sensor implementation. -/
def get_temps (clk : DateTimeMin) (S : SensorImpl) : RRes String :=
  match S.get_ids with
  | .ok ids =>
    match tempsLoop S ids (reportHeader clk) with
    | .ok body => .ok (body ++ "</a>\n")
    | .err e => .err e
    | .panicked m => .panicked m
  | .err e => .err e
  | .panicked m => .panicked m

/-- `str::split` on a one-character separator, on the character list of the
string: always at least one (possibly empty) segment. -/
def splitChar (sep : Char) : List Char → List (List Char)
  | [] => [[]]
  | c :: rest =>
    match splitChar sep rest with
    | [] => [[]]
    | h :: t => if c = sep then [] :: h :: t else (c :: h) :: t

/-- Drop a single trailing carriage return, as `BufRead::lines` does. -/
def stripCR (cs : List Char) : List Char :=
  if cs.getLast? = some '\r' then cs.dropLast else cs

/-- Worker for `rustLines`: `acc` holds the current line reversed; a final
partial line (no trailing newline) is still yielded, an empty tail is not. -/
def rustLinesGo : List Char → List Char → List (List Char)
  | acc, [] => if acc.isEmpty then [] else [stripCR acc.reverse]
  | acc, c :: rest =>
    if c = '\n' then stripCR acc.reverse :: rustLinesGo [] rest
    else rustLinesGo (c :: acc) rest

/-- `BufRead::lines` over a file's content: split at `'\n'`, no trailing
empty line for content ending in a newline, each line stripped of one
trailing `'\r'`. -/
def rustLines (s : String) : List String :=
  (rustLinesGo [] s.data).map (fun cs => String.mk cs)

/-- Digit loop of `i32::from_str_radix(_, 10)`: `neg` is the parsed sign,
`acc` the signed value so far; per character, a non-digit is rejected first,
then the i32 range is enforced step by step. -/
def parseDigits (neg : Bool) (acc : ℤ) : List Char → Except String ℤ
  | [] => .ok acc
  | c :: rest =>
    if '0' ≤ c ∧ c ≤ '9' then
      let d : ℤ := (c.toNat - '0'.toNat : ℕ)
      let acc2 := acc * 10 + (if neg then -d else d)
      if neg then
        if acc2 < -2147483648 then .error "number too small to fit in target type"
        else parseDigits neg acc2 rest
      else
        if 2147483647 < acc2 then .error "number too large to fit in target type"
        else parseDigits neg acc2 rest
    else .error "invalid digit found in string"

/-- `i32::from_str_radix(s, 10)` on the token's characters: optional sign,
then decimal digits; the error strings are `ParseIntError`'s descriptions. -/
def parseI32 : List Char → Except String ℤ
  | [] => .error "cannot parse integer from empty string"
  | c :: rest =>
    if c = '+' then
      if rest.isEmpty then .error "cannot parse integer from empty string"
      else parseDigits false 0 rest
    else if c = '-' then
      if rest.isEmpty then .error "cannot parse integer from empty string"
      else parseDigits true 0 rest
    else parseDigits false 0 (c :: rest)

/-- `RealSensor::get_ids` (lines 28-35 of `main.rs`), over the content of
`w1_master_slaves`: every line read becomes one id, in file order.  (The
`File::open` and per-line IO failures are outside a content-level model.) -/
def RealSensor.get_ids (content : String) : Except String (List String) :=
  .ok (rustLines content)

/-- `RealSensor::get_celcius` (lines 36-47 of `main.rs`), over the lines of
the per-device `w1_slave` file: skip the first line unvalidated, split the
second on `"="`, parse the token after the first `=` as an `i32`, cast it
to `f32` and divide by `1000.0`.  Error strings are the `Display` output of
the corresponding `Box<dyn Error>`. -/
def RealSensor.get_celcius (lines : List String) : Except String ℚ :=
  match lines with
  | [] => .error "missing crc line"
  | [_] => .error "missing data line"
  | _ :: data :: _ =>
    match splitChar '=' data.data with
    | [] => .error "missing before = token"
    | [_] => .error "missing after = token"
    | _ :: tok :: _ =>
      match parseI32 tok with
      | .error e => .error e
      | .ok v => .ok (f32div (roundf32 (v : ℚ)) 1000)

/-- Modelled from the spec's words for comparison with the source: "The
integer after the last `=` is parsed as a signed decimal integer", i.e. the
same reader but taking the token after the LAST `=` of the data line. -/
def specReadCelsiusLastEq (lines : List String) : Except String ℚ :=
  match lines with
  | [] => .error "missing crc line"
  | [_] => .error "missing data line"
  | _ :: data :: _ =>
    match splitChar '=' data.data with
    | [] => .error "missing before = token"
    | [_] => .error "missing after = token"
    | _ :: tok :: rest =>
      match parseI32 ((tok :: rest).getLast (List.cons_ne_nil _ _)) with
      | .error e => .error e
      | .ok v => .ok (f32div (roundf32 (v : ℚ)) 1000)

/-- An HTTP response: status, body, and the `Content-Type` header if set. -/
structure HttpResponse where
  status : ℕ
  body : String
  contentType : Option String
deriving DecidableEq, Repr

/-- The header value inserted on line 106 of `main.rs`. -/
def xmlContentType : String := "application/xml; charset=utf-8"

/-- `read_temp` (lines 88-114 of `main.rs`): route on method and path;
on `GET /details.xml` pick the sensor per the `TEST_MODE` flag, run
`get_temps`, map `Ok` to 200 and `Err` to 500 with an `Error: `-prefixed
body, and set the XML content type on both; anything else is a bare 404. -/
def read_temp (method path : String) (testMode : Bool) (realS : SensorImpl)
    (clk : DateTimeMin) : RRes HttpResponse :=
  if method = "GET" ∧ path = "/details.xml" then
    match get_temps clk (if testMode then fakeSensor else realS) with
    | .ok b => .ok ⟨200, b, some xmlContentType⟩
    | .err e => .ok ⟨500, "Error: " ++ e, some xmlContentType⟩
    | .panicked m => .panicked m
  else .ok ⟨404, "", none⟩

/-- `isPre xs ys` is true when `xs` is an initial segment of `ys`. -/
def isPre : List Char → List Char → Bool
  | [], _ => true
  | _ :: _, [] => false
  | x :: xs, y :: ys => x = y && isPre xs ys

/-- `hasSub needle hay` is true when `needle` occurs contiguously in `hay`. -/
def hasSub : List Char → List Char → Bool
  | needle, [] => isPre needle []
  | needle, c :: t => isPre needle (c :: t) || hasSub needle t

/-- A Sensor Source whose enumeration itself fails. -/
def errSensor : SensorImpl :=
  { get_ids := .err "enum fail", get_celcius := fun _ => .err "enum fail" }

/-- A Sensor Source with ids `["a", "b"]` whose first read succeeds and whose
second read fails: the spec's abort-on-second-read scenario. -/
def secondFailSensor : SensorImpl :=
  { get_ids := .ok ["a", "b"],
    get_celcius := fun id => if id = "a" then .ok 0 else .err "boom" }

/-- All three sensor ids of the stand-in, as a named function table. -/
def fakeTemps (id : String) : ℚ :=
  if id = "id1" then 0 else if id = "id2" then 100 else -40

/-- Concatenation of a list of strings, in order. -/
def concatAll : List String → String
  | [] => ""
  | s :: rest => s ++ concatAll rest

set_option maxRecDepth 100000

/-- C1: with the stand-in Sensor Source and the clock fixed to
2020-01-01 00:00, `get_temps` returns `Ok` of exactly the expected report
string, byte for byte. -/
theorem report_fake_sensor_fixed_clock_bytes :
    get_temps fakeClock fakeSensor =
      .ok "<a updated='2020-01-01 00-00'>\n<owd>\n<Name>DS18B20</Name>\n<ROMId>id1</ROMId>\n<Temperature>0.0</Temperature>\n<TemperatureF>32.0</TemperatureF>\n</owd>\n<owd>\n<Name>DS18B20</Name>\n<ROMId>id2</ROMId>\n<Temperature>100.0</Temperature>\n<TemperatureF>212.0</TemperatureF>\n</owd>\n<owd>\n<Name>DS18B20</Name>\n<ROMId>id3</ROMId>\n<Temperature>-40.0</Temperature>\n<TemperatureF>-40.0</TemperatureF>\n</owd>\n</a>\n" := by
  decide

/-- C2: the stand-in enumerates exactly `["id1", "id2", "id3"]` in order,
reads exactly 0, 100 and -40 degrees Celsius for them, and the generator's
`f32` Fahrenheit conversions of those readings are exactly 32, 212 and -40,
formatting to `"32.0"`, `"212.0"` and `"-40.0"`. -/
theorem fake_sensor_readings_and_fahrenheit :
    FakeSensor.get_ids = .ok ["id1", "id2", "id3"] ∧
    FakeSensor.get_celcius "id1" = .ok 0 ∧
    FakeSensor.get_celcius "id2" = .ok 100 ∧
    FakeSensor.get_celcius "id3" = .ok (-40) ∧
    fahr 0 = 32 ∧ fahr 100 = 212 ∧ fahr (-40) = -40 ∧
    fmt1 (fahr 0) = "32.0" ∧ fmt1 (fahr 100) = "212.0" ∧
    fmt1 (fahr (-40)) = "-40.0" := by
  decide

theorem splitChar_cons (sep c : Char) (rest : List Char) :
    splitChar sep (c :: rest) =
      match splitChar sep rest with
      | [] => [[]]
      | h :: t => if c = sep then [] :: h :: t else (c :: h) :: t := rfl

theorem splitChar_ne_nil (sep : Char) : ∀ cs : List Char, splitChar sep cs ≠ []
  | [] => by simp [splitChar]
  | c :: rest => by
    rw [splitChar_cons]
    rcases h : splitChar sep rest with _ | ⟨hd, tl⟩
    · simp
    · dsimp only
      split <;> simp

theorem splitChar_head (sep : Char) :
    ∀ cs : List Char, ∃ t, splitChar sep cs = cs.takeWhile (fun c => c ≠ sep) :: t
  | [] => ⟨[], by simp [splitChar]⟩
  | c :: rest => by
    obtain ⟨t, ht⟩ := splitChar_head sep rest
    rw [splitChar_cons, ht]
    dsimp only
    by_cases hc : c = sep
    · exact ⟨List.takeWhile (fun x => x ≠ sep) rest :: t, by simp [hc, List.takeWhile_cons]⟩
    · exact ⟨t, by simp [hc, List.takeWhile_cons]⟩

theorem splitChar_no_sep (sep : Char) :
    ∀ cs : List Char, sep ∉ cs → splitChar sep cs = [cs]
  | [], _ => by simp [splitChar]
  | c :: rest, h => by
    have hc : c ≠ sep := fun hceq => h (hceq ▸ List.mem_cons_self c rest)
    have ih := splitChar_no_sep sep rest (fun hm => h (List.mem_cons_of_mem c hm))
    rw [splitChar_cons, ih]
    simp [hc]

theorem splitChar_append (sep : Char) :
    ∀ pre rest : List Char, sep ∉ pre →
      splitChar sep (pre ++ sep :: rest) = pre :: splitChar sep rest
  | [], rest, _ => by
    show splitChar sep (sep :: rest) = [] :: splitChar sep rest
    rw [splitChar_cons]
    rcases h : splitChar sep rest with _ | ⟨hd, tl⟩
    · exact absurd h (splitChar_ne_nil sep rest)
    · simp
  | p :: pre, rest, h => by
    have hp : p ≠ sep := fun hpe => h (hpe ▸ List.mem_cons_self p pre)
    have ih := splitChar_append sep pre rest (fun hm => h (List.mem_cons_of_mem p hm))
    show splitChar sep (p :: (pre ++ sep :: rest)) = _
    rw [splitChar_cons, ih]
    simp [hp]

/-- C5 counterexample: the code takes the token after the FIRST `=` of the
data line, not after the last one: on data line `"t=1=2"` it parses 1, not
2, so it disagrees with the spec-modelled last-`=` reader. -/
theorem get_celcius_first_not_last_eq_counterexample :
    RealSensor.get_celcius ["crc", "t=1=2"] = .ok (f32div (roundf32 1) 1000) ∧
    specReadCelsiusLastEq ["crc", "t=1=2"] = .ok (f32div (roundf32 2) 1000) ∧
    RealSensor.get_celcius ["crc", "t=1=2"] ≠ specReadCelsiusLastEq ["crc", "t=1=2"] := by
  decide

/-- C5 (amended): for every two-line per-device file whose second line is
`pre ++ "=" ++ rest` with no `=` in `pre`, the integer token between the
first `=` and the following `=` (or end of line) is parsed as a signed
base-10 `i32`, and the result is that value cast to `f32` and divided by
`1000.0`, the first line being skipped unvalidated. -/
theorem get_celcius_token_after_first_eq (l1 : String) (pre rest : List Char) (v : ℤ)
    (hpre : '=' ∉ pre)
    (hv : parseI32 (rest.takeWhile (fun c => c ≠ '=')) = .ok v) :
    RealSensor.get_celcius [l1, String.mk (pre ++ '=' :: rest)] =
      .ok (f32div (roundf32 (v : ℚ)) 1000) := by
  unfold RealSensor.get_celcius
  show (match splitChar '=' (pre ++ '=' :: rest) with
    | [] => Except.error "missing before = token"
    | [_] => Except.error "missing after = token"
    | _ :: tok :: _ =>
      match parseI32 tok with
      | .error e => Except.error e
      | .ok v => Except.ok (f32div (roundf32 (v : ℚ)) 1000)) = _
  rw [splitChar_append '=' pre rest hpre]
  obtain ⟨t, ht⟩ := splitChar_head '=' rest
  rw [ht]
  dsimp only
  rw [hv]

theorem get_celcius_token_after_first_eq_witness :
    RealSensor.get_celcius ["crc", String.mk ("t".data ++ '=' :: "22625".data)] =
      .ok (f32div (roundf32 ((22625 : ℤ) : ℚ)) 1000) :=
  get_celcius_token_after_first_eq "crc" "t".data "22625".data 22625
    (by decide) (by decide)

/-- C6: a malformed per-device file makes `get_celcius` return an error and
never a panic or a default reading: a second line without `=` gives the
`missing after = token` error, a non-integer token after the first `=`
gives the integer parser's error, and a file with fewer than two lines
gives the missing-line errors. -/
theorem get_celcius_malformed_gives_error :
    (∀ (lns : List String) (m : String),
      RRes.ofExcept (RealSensor.get_celcius lns) ≠ .panicked m) ∧
    (∀ l1 l2 : String, '=' ∉ l2.data →
      RealSensor.get_celcius [l1, l2] = .error "missing after = token") ∧
    (∀ (l1 : String) (pre rest : List Char) (e : String), '=' ∉ pre →
      parseI32 (rest.takeWhile (fun c => c ≠ '=')) = .error e →
      RealSensor.get_celcius [l1, String.mk (pre ++ '=' :: rest)] = .error e) ∧
    RealSensor.get_celcius [] = .error "missing crc line" ∧
    (∀ l1 : String, RealSensor.get_celcius [l1] = .error "missing data line") := by
  refine ⟨?_, ?_, ?_, by decide, fun l1 => rfl⟩
  · intro lns m
    cases RealSensor.get_celcius lns <;> simp [RRes.ofExcept]
  · intro l1 l2 h
    show (match splitChar '=' l2.data with
      | [] => Except.error "missing before = token"
      | [_] => Except.error "missing after = token"
      | _ :: tok :: _ =>
        match parseI32 tok with
        | .error e => Except.error e
        | .ok v => Except.ok (f32div (roundf32 (v : ℚ)) 1000)) = _
    rw [splitChar_no_sep '=' l2.data h]
  · intro l1 pre rest e hpre he
    show (match splitChar '=' (pre ++ '=' :: rest) with
      | [] => Except.error "missing before = token"
      | [_] => Except.error "missing after = token"
      | _ :: tok :: _ =>
        match parseI32 tok with
        | .error e => Except.error e
        | .ok v => Except.ok (f32div (roundf32 (v : ℚ)) 1000)) = _
    rw [splitChar_append '=' pre rest hpre]
    obtain ⟨t, ht⟩ := splitChar_head '=' rest
    rw [ht]
    dsimp only
    rw [he]

theorem get_celcius_malformed_gives_error_witness :
    RealSensor.get_celcius ["crc", "no equals sign here"] =
      .error "missing after = token" :=
  get_celcius_malformed_gives_error.2.1 "crc" "no equals sign here" (by decide)

/-- C4 counterexample: the device-list reader keeps EMPTY lines too.  On
content `"a\n\nb\n"` it returns an id for the blank middle line, so it does
not return one id per non-empty line. -/
theorem get_ids_includes_empty_line_counterexample :
    RealSensor.get_ids "a\n\nb\n" = .ok ["a", "", "b"] ∧
    "" ∈ ["a", "", "b"] ∧
    RealSensor.get_ids "a\n\nb\n" ≠ .ok ["a", "b"] := by
  decide

theorem rustLinesGo_append :
    ∀ (l acc rest : List Char), '\n' ∉ l →
      rustLinesGo acc (l ++ '\n' :: rest) =
        stripCR (acc.reverse ++ l) :: rustLinesGo [] rest
  | [], acc, rest, _ => by simp [rustLinesGo]
  | c :: l, acc, rest, hl => by
    have hc : c ≠ '\n' := fun hceq => hl (hceq ▸ List.mem_cons_self c l)
    have ih := rustLinesGo_append l (c :: acc) rest
      (fun hm => hl (List.mem_cons_of_mem c hm))
    show rustLinesGo acc ((c :: l) ++ '\n' :: rest) = _
    rw [List.cons_append]
    show (if c = '\n' then stripCR acc.reverse :: rustLinesGo [] (l ++ '\n' :: rest)
      else rustLinesGo (c :: acc) (l ++ '\n' :: rest)) = _
    rw [if_neg hc, ih]
    simp

theorem rustLines_of_terminated_lines :
    ∀ ls : List String, (∀ l ∈ ls, '\n' ∉ l.data ∧ l.data.getLast? ≠ some '\r') →
      rustLines (concatAll (ls.map (fun l => l ++ "\n"))) = ls
  | [], _ => by decide
  | l :: ls, h => by
    have hl := h l (List.mem_cons_self l ls)
    have ih := rustLines_of_terminated_lines ls
      (fun x hx => h x (List.mem_cons_of_mem l hx))
    show rustLines ((l ++ "\n") ++ concatAll (ls.map (fun l => l ++ "\n"))) = l :: ls
    unfold rustLines at ih ⊢
    rw [show ((l ++ "\n") ++ concatAll (ls.map (fun l => l ++ "\n"))).data =
          l.data ++ '\n' :: (concatAll (ls.map (fun l => l ++ "\n"))).data by
        simp [String.data_append]]
    rw [rustLinesGo_append l.data [] _ hl.1]
    rw [show stripCR (List.reverse [] ++ l.data) = l.data by
        simp [stripCR, hl.2]]
    rw [List.map_cons, ih]

/-- C4 (amended): the device-list reader returns one SensorId per line of
the file — empty lines included — preserving the file's line order, with no
deduplication and no sorting: for every list of newline-terminated lines it
returns exactly that list. -/
theorem get_ids_one_id_per_line (ls : List String)
    (h : ∀ l ∈ ls, '\n' ∉ l.data ∧ l.data.getLast? ≠ some '\r') :
    RealSensor.get_ids (concatAll (ls.map (fun l => l ++ "\n"))) = .ok ls := by
  unfold RealSensor.get_ids
  rw [rustLines_of_terminated_lines ls h]

theorem get_ids_one_id_per_line_witness :
    RealSensor.get_ids (concatAll (["idB", "idA", "", "idA"].map (fun l => l ++ "\n"))) =
      .ok ["idB", "idA", "", "idA"] :=
  get_ids_one_id_per_line ["idB", "idA", "", "idA"] (by decide)

theorem tempsLoop_all_ok (S : SensorImpl) (f : String → ℚ) :
    ∀ (ids : List String) (body : String),
      (∀ id ∈ ids, S.get_celcius id = .ok (f id)) →
      tempsLoop S ids body =
        .ok (body ++ concatAll (ids.map (fun id => owdBlock id (f id))))
  | [], body, _ => by simp [tempsLoop, concatAll]
  | id :: rest, body, h => by
    have h1 : S.get_celcius id = .ok (f id) := h id (List.mem_cons_self id rest)
    have h2 := fun i hi => h i (List.mem_cons_of_mem id hi)
    show (match S.get_celcius id with
      | .ok temp => tempsLoop S rest (body ++ owdBlock id temp)
      | .err e => RRes.err e
      | .panicked m => RRes.panicked m) = _
    rw [h1]
    dsimp only
    rw [tempsLoop_all_ok S f rest (body ++ owdBlock id (f id)) h2]
    rw [List.map_cons]
    show _ = RRes.ok (body ++ (owdBlock id (f id) ++ _))
    rw [← String.append_assoc]

/-- C7: whenever enumeration yields `ids` (possibly empty) and every read
succeeds, the report is exactly the root element wrapping one `<owd>` block
per id, concatenated in enumeration order; with zero ids the root element is
still present with an empty body between its tags. -/
theorem report_one_block_per_id_in_order :
    (∀ (clk : DateTimeMin) (S : SensorImpl) (ids : List String) (f : String → ℚ),
      S.get_ids = .ok ids →
      (∀ id ∈ ids, S.get_celcius id = .ok (f id)) →
      get_temps clk S =
        .ok ((reportHeader clk ++
          concatAll (ids.map (fun id => owdBlock id (f id)))) ++ "</a>\n")) ∧
    (∀ (clk : DateTimeMin) (S : SensorImpl), S.get_ids = .ok [] →
      get_temps clk S = .ok (reportHeader clk ++ "</a>\n")) := by
  constructor
  · intro clk S ids f hids hread
    unfold get_temps
    rw [hids]
    dsimp only
    rw [tempsLoop_all_ok S f ids (reportHeader clk) hread]
  · intro clk S hids
    unfold get_temps
    rw [hids]
    dsimp only
    rw [tempsLoop_all_ok S (fun _ => 0) [] (reportHeader clk) (by simp)]
    simp [concatAll]

theorem report_one_block_per_id_in_order_witness :
    get_temps fakeClock fakeSensor =
      .ok ((reportHeader fakeClock ++
        concatAll (["id1", "id2", "id3"].map
          (fun id => owdBlock id (fakeTemps id)))) ++ "</a>\n") :=
  report_one_block_per_id_in_order.1 fakeClock fakeSensor
    ["id1", "id2", "id3"] fakeTemps rfl (by decide)

theorem tempsLoop_some_read_fails (S : SensorImpl) :
    ∀ (ids : List String) (body : String),
      (∀ id ∈ ids, ∀ m, S.get_celcius id ≠ .panicked m) →
      (∃ id ∈ ids, ∃ e, S.get_celcius id = .err e) →
      ∃ e2, tempsLoop S ids body = .err e2
  | [], _, _, hex => by
    rcases hex with ⟨id, hid, _⟩
    exact absurd hid (List.not_mem_nil id)
  | id :: rest, body, hnp, hex => by
    show ∃ e2, (match S.get_celcius id with
      | .ok temp => tempsLoop S rest (body ++ owdBlock id temp)
      | .err e => RRes.err e
      | .panicked m => RRes.panicked m) = RRes.err e2
    cases hcel : S.get_celcius id with
    | ok v =>
      dsimp only
      apply tempsLoop_some_read_fails S rest (body ++ owdBlock id v)
        (fun i hi => hnp i (List.mem_cons_of_mem id hi))
      rcases hex with ⟨id0, hid0, e, he⟩
      rcases List.mem_cons.mp hid0 with heq | hmem
      · subst heq
        rw [hcel] at he
        exact absurd he (by simp)
      · exact ⟨id0, hmem, e, he⟩
    | err e => exact ⟨e, rfl⟩
    | panicked m => exact absurd hcel (hnp id (List.mem_cons_self id rest) m)

/-- C3: a failed enumeration is propagated as the report's error; if no read
panics and the read of some enumerated id fails, the whole report fails with
an error (so no partial report string exists); and in the concrete scenario
where the second of two ids fails to read, the HTTP response is 500 with
body `"Error: "` plus the error's description, containing no `<owd>`
fragment from the successfully read first sensor. -/
theorem report_error_all_or_nothing :
    (∀ (clk : DateTimeMin) (S : SensorImpl) (e : String),
      S.get_ids = .err e → get_temps clk S = .err e) ∧
    (∀ (clk : DateTimeMin) (S : SensorImpl) (ids : List String),
      S.get_ids = .ok ids →
      (∀ id ∈ ids, ∀ m, S.get_celcius id ≠ .panicked m) →
      (∃ id ∈ ids, ∃ e, S.get_celcius id = .err e) →
      ∃ e2, get_temps clk S = .err e2) ∧
    (read_temp "GET" "/details.xml" false secondFailSensor fakeClock =
        .ok ⟨500, "Error: boom", some xmlContentType⟩ ∧
      hasSub "<owd>".data "Error: boom".data = false) := by
  refine ⟨?_, ?_, by decide⟩
  · intro clk S e hids
    unfold get_temps
    rw [hids]
  · intro clk S ids hids hnp hex
    obtain ⟨e2, hloop⟩ :=
      tempsLoop_some_read_fails S ids (reportHeader clk) hnp hex
    refine ⟨e2, ?_⟩
    unfold get_temps
    rw [hids]
    dsimp only
    rw [hloop]

theorem report_error_all_or_nothing_witness :
    get_temps fakeClock errSensor = .err "enum fail" :=
  report_error_all_or_nothing.1 fakeClock errSensor "enum fail" rfl

/-- C8: any request whose method/path pair is not (`GET`, `/details.xml`)
gets a 404 response with an empty body and no content type. -/
theorem read_temp_not_found_other_routes (method path : String) (tm : Bool)
    (S : SensorImpl) (clk : DateTimeMin)
    (h : ¬(method = "GET" ∧ path = "/details.xml")) :
    read_temp method path tm S clk = .ok ⟨404, "", none⟩ := by
  unfold read_temp
  rw [if_neg h]

theorem read_temp_not_found_other_routes_witness :
    read_temp "POST" "/details.xml" true fakeSensor fakeClock =
      .ok ⟨404, "", none⟩ :=
  read_temp_not_found_other_routes "POST" "/details.xml" true fakeSensor
    fakeClock (by decide)

/-- C9: reading any id that the stand-in itself enumerates returns `Ok`,
so its `unreachable!` branch is never taken under correct use. -/
theorem fake_get_celcius_ok_on_enumerated_ids (ids : List String)
    (hids : FakeSensor.get_ids = .ok ids) (id : String) (hid : id ∈ ids) :
    FakeSensor.get_celcius id = .ok (fakeTemps id) := by
  have h2 : RRes.ok ["id1", "id2", "id3"] = RRes.ok ids := hids
  injection h2 with h3
  subst h3
  rcases hid with _ | ⟨_, _ | ⟨_, _ | ⟨_, h⟩⟩⟩
  · decide
  · decide
  · decide
  · exact absurd h (List.not_mem_nil id)

theorem fake_get_celcius_ok_on_enumerated_ids_witness :
    FakeSensor.get_celcius "id3" = .ok (fakeTemps "id3") :=
  fake_get_celcius_ok_on_enumerated_ids ["id1", "id2", "id3"] rfl "id3"
    (by decide)

/-- C10: on the `GET /details.xml` route, every response that the handler
returns — the 200 success response and the 500 failure response alike —
carries the `application/xml; charset=utf-8` content type. -/
theorem read_temp_xml_content_type_on_details (tm : Bool) (S : SensorImpl)
    (clk : DateTimeMin) (r : HttpResponse)
    (h : read_temp "GET" "/details.xml" tm S clk = .ok r) :
    r.contentType = some xmlContentType := by
  unfold read_temp at h
  rw [if_pos ⟨rfl, rfl⟩] at h
  cases hg : get_temps clk (if tm then fakeSensor else S) with
  | ok b =>
    rw [hg] at h
    cases h
    rfl
  | err e =>
    rw [hg] at h
    cases h
    rfl
  | panicked m =>
    rw [hg] at h
    exact absurd h (by simp)

theorem read_temp_xml_content_type_on_details_witness :
    (HttpResponse.mk 500 "Error: boom" (some xmlContentType)).contentType =
      some xmlContentType :=
  read_temp_xml_content_type_on_details false secondFailSensor fakeClock
    ⟨500, "Error: boom", some xmlContentType⟩ (by decide)
